import Mathlib

/-!
Verification of the fast-collectstatic management command
(storages/management/commands/collectstatic.py).

The command overrides Django's collectstatic change detection: when the
AWS_FAST_COLLECTSTATIC setting is on, a file is compared against the remote
store by MD5 fingerprint instead of by last-modified time.

The embedding below translates the module's functions into pure Lean
functions.  Side effects are made explicit:
  - log output is collected as a list of `LogMsg` values;
  - exceptions become `Except Unit` results (the command catches every
    exception with a bare except clause, so the payload is irrelevant);
  - invocations of the two fingerprint helpers are recorded as a list of
    `Call` values so that short-circuit claims can be stated;
  - the base-class (timestamp based) delete_file, which lives in Django and
    not in this repository, is a function-valued parameter of the
    environment;
  - hashlib's incremental md5 object is modelled by the accumulated byte
    list together with a full implementation of MD5 (padding, 64 rounds,
    little-endian digest), so digests of concrete inputs are the real ones.
Bytes are natural numbers below 256.
-/

set_option maxRecDepth 8192

namespace FastCollect

/-- Log messages the command can emit, one constructor per log call site. -/
inductive LogMsg : Type where
  | forcingPreload : LogMsg
  | unknownStorage : String → LogMsg
  | skipping : String → LogMsg
deriving DecidableEq

/-- Which of the two fingerprint helpers delete_file invoked. -/
inductive Call : Type where
  | remoteHash : Call
  | localHash : Call
deriving DecidableEq

/-- File-stream lifecycle events of get_local_hash. -/
inductive FEvent : Type where
  | openEv : FEvent
  | readEv : FEvent
  | closeEv : FEvent
deriving DecidableEq

/-! ### MD5 (model of hashlib.md5) -/

/-- Truncate to a 32-bit word. -/
def w32 (n : Nat) : Nat := n % 4294967296

/-- Bitwise complement on 32-bit words. -/
def not32 (n : Nat) : Nat := 4294967295 - (n % 4294967296)

/-- Left rotation of a 32-bit word. -/
def rotl32 (x n : Nat) : Nat :=
  w32 ((x % 4294967296) <<< n) ||| ((x % 4294967296) >>> (32 - n))

/-- The 64 MD5 round constants, floor(2^32 * abs(sin(i+1))). -/
def md5K : List Nat :=
  [0xd76aa478, 0xe8c7b756, 0x242070db, 0xc1bdceee,
   0xf57c0faf, 0x4787c62a, 0xa8304613, 0xfd469501,
   0x698098d8, 0x8b44f7af, 0xffff5bb1, 0x895cd7be,
   0x6b901122, 0xfd987193, 0xa679438e, 0x49b40821,
   0xf61e2562, 0xc040b340, 0x265e5a51, 0xe9b6c7aa,
   0xd62f105d, 0x02441453, 0xd8a1e681, 0xe7d3fbc8,
   0x21e1cde6, 0xc33707d6, 0xf4d50d87, 0x455a14ed,
   0xa9e3e905, 0xfcefa3f8, 0x676f02d9, 0x8d2a4c8a,
   0xfffa3942, 0x8771f681, 0x6d9d6122, 0xfde5380c,
   0xa4beea44, 0x4bdecfa9, 0xf6bb4b60, 0xbebfbc70,
   0x289b7ec6, 0xeaa127fa, 0xd4ef3085, 0x04881d05,
   0xd9d4d039, 0xe6db99e5, 0x1fa27cf8, 0xc4ac5665,
   0xf4292244, 0x432aff97, 0xab9423a7, 0xfc93a039,
   0x655b59c3, 0x8f0ccc92, 0xffeff47d, 0x85845dd1,
   0x6fa87e4f, 0xfe2ce6e0, 0xa3014314, 0x4e0811a1,
   0xf7537e82, 0xbd3af235, 0x2ad7d2bb, 0xeb86d391]

/-- The 64 MD5 per-round left-rotation amounts. -/
def md5S : List Nat :=
  [7, 12, 17, 22, 7, 12, 17, 22, 7, 12, 17, 22, 7, 12, 17, 22,
   5, 9, 14, 20, 5, 9, 14, 20, 5, 9, 14, 20, 5, 9, 14, 20,
   4, 11, 16, 23, 4, 11, 16, 23, 4, 11, 16, 23, 4, 11, 16, 23,
   6, 10, 15, 21, 6, 10, 15, 21, 6, 10, 15, 21, 6, 10, 15, 21]

/-- Little-endian byte decomposition: k bytes of n. -/
def toBytesLE : Nat → Nat → List Nat
  | 0, _ => []
  | k + 1, n => n % 256 :: toBytesLE k (n / 256)

/-- The j-th little-endian 32-bit word of a 64-byte block. -/
def leWord (block : List Nat) (j : Nat) : Nat :=
  block.getD (4 * j) 0 + 256 * block.getD (4 * j + 1) 0 +
    65536 * block.getD (4 * j + 2) 0 + 16777216 * block.getD (4 * j + 3) 0

/-- One MD5 round: i is the round index, M the 16 message words. -/
def md5Round (M : List Nat) (st : Nat × Nat × Nat × Nat) (i : Nat) :
    Nat × Nat × Nat × Nat :=
  let a := st.1
  let b := st.2.1
  let c := st.2.2.1
  let d := st.2.2.2
  let fg : Nat × Nat :=
    if i < 16 then ((b &&& c) ||| (not32 b &&& d), i)
    else if i < 32 then ((d &&& b) ||| (not32 d &&& c), (5 * i + 1) % 16)
    else if i < 48 then (b ^^^ c ^^^ d, (3 * i + 5) % 16)
    else (c ^^^ (b ||| not32 d), (7 * i) % 16)
  let f := w32 (fg.1 + a + md5K.getD i 0 + M.getD fg.2 0)
  (d, w32 (b + rotl32 f (md5S.getD i 0)), b, c)

/-- Process one 64-byte block into the running MD5 state. -/
def processBlock (st : Nat × Nat × Nat × Nat) (block : List Nat) :
    Nat × Nat × Nat × Nat :=
  let M := (List.range 16).map (leWord block)
  let r := (List.range 64).foldl (md5Round M) st
  (w32 (st.1 + r.1), w32 (st.2.1 + r.2.1),
   w32 (st.2.2.1 + r.2.2.1), w32 (st.2.2.2 + r.2.2.2))

/-- Worker for chunksOf, structurally recursive on a fuel bound so that the
kernel can evaluate it.  Fuel l.length is always enough when bs is at least
one, since every step consumes at least one byte. -/
def chunksGo (bs : Nat) : Nat → List Nat → List (List Nat)
  | _, [] => []
  | 0, _ :: _ => []
  | fuel + 1, a :: l =>
    if bs = 0 then []
    else (a :: l).take bs :: chunksGo bs fuel ((a :: l).drop bs)

/-- Split a byte list into chunks of size bs.  This is the model of the read
loop of get_local_hash: content.read(bs) returns successive slices of at
most bs bytes and the loop stops at the first empty read, so for bs = 0 the
loop body never runs and no chunk is produced. -/
def chunksOf (bs : Nat) (l : List Nat) : List (List Nat) :=
  chunksGo bs l.length l

/-- MD5 padding: 0x80, zeros to 56 mod 64, then the bit length as 8
little-endian bytes. -/
def md5Pad (msg : List Nat) : List Nat :=
  msg ++ 128 :: (List.replicate ((119 - msg.length % 64) % 64) 0 ++
    toBytesLE 8 ((msg.length * 8) % 18446744073709551616))

/-- The 16-byte MD5 digest of a byte list. -/
def md5 (msg : List Nat) : List Nat :=
  let r := (chunksOf 64 (md5Pad msg)).foldl processBlock
    (0x67452301, 0xefcdab89, 0x98badcfe, 0x10325476)
  toBytesLE 4 r.1 ++ toBytesLE 4 r.2.1 ++ toBytesLE 4 r.2.2.1 ++
    toBytesLE 4 r.2.2.2

/-- Lower-case hex digit. -/
def hexDigitChar (n : Nat) : Char :=
  Char.ofNat (if n < 10 then 48 + n else 87 + n)

/-- Hex string of the MD5 digest, as hashlib's hexdigest returns it. -/
def md5_hexdigest (msg : List Nat) : String :=
  String.mk ((md5 msg).foldr
    (fun b acc => hexDigitChar (b / 16) :: hexDigitChar (b % 16) :: acc) [])

/-! ### The storage collaborator and the command environment -/

/-- The double-quote character that S3 etags are wrapped in. -/
def quoteChar : Char := Char.ofNat 34

/-- Model of str.replace applied to drop every double-quote character, as
get_remote_hash does on the etag. -/
def stripQuotes (s : String) : String :=
  String.mk (s.data.filter (fun c => c ≠ quoteChar))

/-- Model of os.path.join for two path components (posixpath.join): an
absolute second component wins; otherwise the components are joined with a
single separator. -/
def os_path_join (a b : String) : String :=
  if b.data.headD ' ' = '/' then b
  else if a = "" ∨ a.data.getLastD ' ' = '/' then a ++ b
  else a ++ "/" ++ b

/-- The storage collaborator (an S3-like Django storage).  Optional fields
model optional Python attributes: hasattr checks become Option matches and
getattr with a default becomes Option.getD.  entries = none models a
storage with no entries dictionary at all (attribute access raises). -/
structure Storage : Type where
  preload_metadata : Option Bool
  location : String
  normalize_name : Option (String → String)
  clean_name : Option (String → String)
  entries : Option (List (String × String))
  exists_ : String → Bool

/-- The command's environment: the AWS_FAST_COLLECTSTATIC setting, the
target storage, and the inherited Django delete_file (timestamp policy),
which lives outside this repository and is therefore a parameter. -/
structure Env : Type where
  fast : Bool
  storage : Storage
  superDelete : String → String → (String → Except Unit (List Nat)) → Bool

/-- Model of Command.init: after delegating to the superclass constructor,
when the setting is on and getattr(storage, 'preload_metadata', True) is
falsy, log and force preload_metadata to True.  Returns the resulting
storage together with the log output. -/
def initStorage (fast : Bool) (s : Storage) : Storage × List LogMsg :=
  if fast ∧ ¬ s.preload_metadata.getD true then
    ({ s with preload_metadata := some true }, [LogMsg.forcingPreload])
  else
    (s, [])

/-- Model of Command.get_entry_path: prefer the storage's internal
path-normalization routine, and fall back to joining self.storage.location
with the prefixed path, logging a notice.  selfStorage is self.storage,
storage the parameter. -/
def get_entry_path (selfStorage storage : Storage) (prefixed_path : String) :
    String × List LogMsg :=
  match storage.normalize_name with
  | some f => (f prefixed_path, [])
  | none =>
    match storage.clean_name with
    | some f => (f prefixed_path, [])
    | none =>
      (os_path_join selfStorage.location prefixed_path,
       [LogMsg.unknownStorage prefixed_path])

/-- Model of Command.get_remote_hash: normalize the path, look the entry up
in self.storage.entries and strip quotes off its etag.  A missing entries
dictionary or a missing entry raises (modelled as Except.error); logs from
get_entry_path are emitted either way. -/
def get_remote_hash (storage : Storage) (prefixed_path : String) :
    Except Unit String × List LogMsg :=
  let ep := get_entry_path storage storage prefixed_path
  match storage.entries with
  | none => (Except.error (), ep.2)
  | some es =>
    match es.lookup ep.1 with
    | none => (Except.error (), ep.2)
    | some etag => (Except.ok (stripQuotes etag), ep.2)

/-- Model of Command.get_local_hash: open the file on the source storage
(openFile returns its byte content, or an error), feed it to md5 in chunks
of block_size bytes, and return the hex digest.  hashlib's incremental
update is the fold of list append: the digest is that of the concatenation
of the chunks. -/
def get_local_hash (openFile : String → Except Unit (List Nat))
    (path : String) (block_size : Nat) : Except Unit String :=
  match openFile path with
  | Except.error e => Except.error e
  | Except.ok content =>
    Except.ok (md5_hexdigest
      ((chunksOf block_size content).foldl (fun a b => a ++ b) []))

/-- Command.get_local_hash again, instrumented with the stream lifecycle:
the open call, one read per chunk plus the final empty read that ends the
loop.  The source contains no close call, so no close event ever occurs. -/
def get_local_hash_events (openRes : Except Unit (List Nat))
    (block_size : Nat) : Except Unit String × List FEvent :=
  match openRes with
  | Except.error e => (Except.error e, [FEvent.openEv])
  | Except.ok content =>
    (Except.ok (md5_hexdigest
       ((chunksOf block_size content).foldl (fun a b => a ++ b) [])),
     FEvent.openEv ::
       ((chunksOf block_size content).map (fun _ => FEvent.readEv) ++
        [FEvent.readEv]))

/-- Model of Command.delete_file.  Returns the decision (True = publish the
file, False = skip it), the log output, and the list of fingerprint helpers
that were invoked.  When the setting is off, the decision is delegated to
the inherited timestamp-based delete_file; when a fingerprint computation
raises, the bare except clause delegates to it as well. -/
def delete_file (env : Env) (path prefixed_path : String)
    (source_storage : String → Except Unit (List Nat)) :
    Bool × List LogMsg × List Call :=
  if env.fast = false then
    (env.superDelete path prefixed_path source_storage, [], [])
  else if env.storage.exists_ prefixed_path then
    let rh := get_remote_hash env.storage prefixed_path
    match rh.1 with
    | Except.error _ =>
      (env.superDelete path prefixed_path source_storage, rh.2,
       [Call.remoteHash])
    | Except.ok remote_hash =>
      match get_local_hash source_storage path 1048576 with
      | Except.error _ =>
        (env.superDelete path prefixed_path source_storage, rh.2,
         [Call.remoteHash, Call.localHash])
      | Except.ok local_hash =>
        if remote_hash = local_hash then
          (false, rh.2 ++ [LogMsg.skipping path],
           [Call.remoteHash, Call.localHash])
        else
          (true, rh.2, [Call.remoteHash, Call.localHash])
  else
    (true, [], [])

/-! ### Concrete fixtures used by witnesses and counterexamples -/

/-- A source storage whose every file is empty. -/
def srcEmpty : String → Except Unit (List Nat) := fun _ => Except.ok []

/-- A storage with no path-normalization helpers, an empty entries
dictionary, no preload_metadata attribute, and every path reported to
exist. -/
def storageA : Storage where
  preload_metadata := none
  location := "static"
  normalize_name := none
  clean_name := none
  entries := some []
  exists_ := fun _ => true

/-- An environment around storageA whose inherited timestamp policy always
answers skip (False). -/
def envA : Env where
  fast := true
  storage := storageA
  superDelete := fun _ _ _ => false

/-- A storage that normalizes paths to themselves and knows one entry with
an unquoted etag. -/
def storageB : Storage where
  preload_metadata := some true
  location := ""
  normalize_name := some (fun p => p)
  clean_name := none
  entries := some [("f", "abc")]
  exists_ := fun _ => true

/-- An environment around storageB with the setting on. -/
def envB : Env where
  fast := true
  storage := storageB
  superDelete := fun _ _ _ => true

/-- The hex MD5 digest of the empty byte sequence. -/
def emptyDigest : String := "d41d8cd98f00b204e9800998ecf8427e"

/-- The empty-file digest wrapped in double quotes, as S3 etags come. -/
def quotedEmptyDigest : String :=
  String.mk (quoteChar :: (emptyDigest.data ++ [quoteChar]))

/-- A storage that normalizes paths to themselves and stores the quoted
empty-file digest for path s. -/
def storageE : Storage where
  preload_metadata := some true
  location := ""
  normalize_name := some (fun p => p)
  clean_name := none
  entries := some [("s", quotedEmptyDigest)]
  exists_ := fun _ => true

/-- An environment around storageE with the setting on. -/
def envE : Env where
  fast := true
  storage := storageE
  superDelete := fun _ _ _ => true

/-- An environment whose storage reports no path as existing. -/
def envC : Env where
  fast := true
  storage :=
    { storageB with exists_ := fun _ => false, entries := none }
  superDelete := fun _ _ _ => false

/-- An environment with the setting off. -/
def envD : Env where
  fast := false
  storage := storageA
  superDelete := fun _ _ _ => false

/-- storageA with an explicitly disabled preload_metadata attribute. -/
def storageF : Storage :=
  { storageA with preload_metadata := some false }

/-! ### General lemmas -/

/-- Sanity anchor: the model computes the well-known MD5 of the empty
message. -/
theorem md5_hexdigest_nil : md5_hexdigest [] = emptyDigest := by decide

/-- Sanity anchor: the model computes the well-known MD5 of "abc". -/
theorem md5_hexdigest_abc :
    md5_hexdigest [97, 98, 99] = "900150983cd24fb0d6963f7d28e17f72" := by
  decide

/-- Folding append over the chunks recovers the original byte list, for any
sufficient fuel and any chunk size of at least one byte. -/
theorem chunksGo_foldl_append (bs : Nat) (hbs : 1 ≤ bs) :
    ∀ (fuel : Nat) (l acc : List Nat), l.length ≤ fuel →
      (chunksGo bs fuel l).foldl (fun a b => a ++ b) acc = acc ++ l := by
  intro fuel
  induction fuel with
  | zero =>
    intro l acc h
    cases l with
    | nil => simp [chunksGo]
    | cons a t => simp at h
  | succ n ih =>
    intro l acc h
    cases l with
    | nil => simp [chunksGo]
    | cons a t =>
      have hbs0 : ¬ bs = 0 := by omega
      simp only [List.length_cons] at h
      simp only [chunksGo, if_neg hbs0, List.foldl_cons]
      rw [ih ((a :: t).drop bs) (acc ++ (a :: t).take bs)
        (by simp only [List.length_drop, List.length_cons]; omega)]
      rw [List.append_assoc, List.take_append_drop]

/-- Folding append over chunksOf recovers the original byte list whenever
the chunk size is at least one byte. -/
theorem chunksOf_foldl (bs : Nat) (hbs : 1 ≤ bs) (l : List Nat) :
    (chunksOf bs l).foldl (fun a b => a ++ b) [] = l := by
  simpa [chunksOf] using
    chunksGo_foldl_append bs hbs l.length l [] (Nat.le_refl _)

/-- List-level form: dropping quote characters from a quote-wrapped
character list recovers the list, when it contains no quote itself. -/
theorem filter_quote_wrap (l : List Char) (hq : quoteChar ∉ l) :
    (quoteChar :: (l ++ [quoteChar])).filter (fun c => c ≠ quoteChar) = l := by
  have hl : l.filter (fun c => decide (c ≠ quoteChar)) = l :=
    List.filter_eq_self.mpr (fun c hc => by
      simp only [decide_eq_true_eq]
      exact fun e => hq (e ▸ hc))
  simp [List.filter_cons, List.filter_append, hl]
  exact fun a ha e => hq (e ▸ ha)

/-- Stripping quotes from a quote-wrapped string recovers the string, when
the string itself contains no quote character. -/
theorem stripQuotes_wrap (h : String) (hq : quoteChar ∉ h.data) :
    stripQuotes (String.mk (quoteChar :: (h.data ++ [quoteChar]))) = h := by
  cases h with
  | mk l =>
    exact congrArg String.mk (filter_quote_wrap l hq)

/-- Shared shape lemma: when the setting is on, the remote object exists
and both fingerprints are obtained, delete_file answers by comparing
them. -/
theorem delete_file_fst_of_hashes (env : Env) (path prefixed_path : String)
    (source_storage : String → Except Unit (List Nat)) (rh lh : String)
    (hf : env.fast = true)
    (he : env.storage.exists_ prefixed_path = true)
    (hr : (get_remote_hash env.storage prefixed_path).1 = Except.ok rh)
    (hl : get_local_hash source_storage path 1048576 = Except.ok lh) :
    (delete_file env path prefixed_path source_storage).1 =
      if rh = lh then false else true := by
  simp only [delete_file, hf, he, Bool.true_eq_false, if_false, if_true]
  rw [hr, hl]
  by_cases hc : rh = lh <;> simp [hc]

/-- The instrumented get_local_hash computes the same result as the plain
one. -/
theorem get_local_hash_events_result
    (openFile : String → Except Unit (List Nat)) (path : String)
    (bs : Nat) :
    (get_local_hash_events (openFile path) bs).1 =
      get_local_hash openFile path bs := by
  cases h : openFile path <;>
    simp [get_local_hash_events, get_local_hash, h]

/-! ### Claim theorems -/

/-- C1, counterexample: with the setting on, a remote object present, and a
remote fingerprint lookup that raises (empty entries dictionary), the
decision can still be False when the inherited timestamp policy answers
skip, so the error path does not always decide publish. -/
theorem delete_file_error_skip_counterexample :
    (get_remote_hash envA.storage "app.js").1 = Except.error () ∧
      (delete_file envA "app.js" "app.js" srcEmpty).1 = false :=
  ⟨rfl, rfl⟩

/-- C1, amended: with the setting on and a remote object present, when
obtaining either fingerprint raises, the error is not propagated and the
decision equals the inherited timestamp-based delete_file result. -/
theorem delete_file_error_delegates (env : Env) (path prefixed_path : String)
    (source_storage : String → Except Unit (List Nat))
    (hf : env.fast = true)
    (he : env.storage.exists_ prefixed_path = true)
    (herr : (get_remote_hash env.storage prefixed_path).1 = Except.error () ∨
      get_local_hash source_storage path 1048576 = Except.error ()) :
    (delete_file env path prefixed_path source_storage).1 =
      env.superDelete path prefixed_path source_storage := by
  simp only [delete_file, hf, he, Bool.true_eq_false, if_false, if_true]
  rcases herr with h | h
  · rw [h]
  · cases hr : (get_remote_hash env.storage prefixed_path).1 with
    | error e => rfl
    | ok rh => rw [h]

/-- C1, witness for the amended theorem at a concrete input. -/
theorem delete_file_error_delegates_witness :
    envA.fast = true ∧ envA.storage.exists_ "app.js" = true ∧
      (get_remote_hash envA.storage "app.js").1 = Except.error () ∧
      (delete_file envA "app.js" "app.js" srcEmpty).1 =
        envA.superDelete "app.js" "app.js" srcEmpty :=
  ⟨rfl, rfl, rfl,
   delete_file_error_delegates envA "app.js" "app.js" srcEmpty rfl rfl
     (Or.inl rfl)⟩

/-- C2: with the setting on, a remote object present and both fingerprints
obtained, delete_file answers False exactly when the quote-stripped remote
fingerprint equals the local one, and True when they differ. -/
theorem delete_file_compares_hashes (env : Env) (path prefixed_path : String)
    (source_storage : String → Except Unit (List Nat)) (rh lh : String)
    (hf : env.fast = true)
    (he : env.storage.exists_ prefixed_path = true)
    (hr : (get_remote_hash env.storage prefixed_path).1 = Except.ok rh)
    (hl : get_local_hash source_storage path 1048576 = Except.ok lh) :
    (delete_file env path prefixed_path source_storage).1 =
      if rh = lh then false else true :=
  delete_file_fst_of_hashes env path prefixed_path source_storage rh lh
    hf he hr hl

/-- C2, witness: a present remote entry with etag abc against an empty
local file, whose MD5 differs, decides publish. -/
theorem delete_file_compares_hashes_witness :
    envB.fast = true ∧ envB.storage.exists_ "f" = true ∧
      (get_remote_hash envB.storage "f").1 = Except.ok "abc" ∧
      get_local_hash srcEmpty "f" 1048576 = Except.ok emptyDigest ∧
      (delete_file envB "f" "f" srcEmpty).1 =
        if "abc" = emptyDigest then false else true :=
  ⟨rfl, rfl, rfl, rfl,
   delete_file_compares_hashes envB "f" "f" srcEmpty "abc" emptyDigest
     rfl rfl rfl rfl⟩

/-- C3: with the setting on and no remote object at the target path,
delete_file decides publish immediately, emits no log and invokes neither
fingerprint helper. -/
theorem delete_file_remote_absent (env : Env) (path prefixed_path : String)
    (source_storage : String → Except Unit (List Nat))
    (hf : env.fast = true)
    (he : env.storage.exists_ prefixed_path = false) :
    delete_file env path prefixed_path source_storage = (true, [], []) := by
  simp [delete_file, hf, he]

/-- C3, witness at a concrete environment whose storage reports no object
present. -/
theorem delete_file_remote_absent_witness :
    envC.fast = true ∧ envC.storage.exists_ "x" = false ∧
      delete_file envC "x" "x" srcEmpty = (true, [], []) :=
  ⟨rfl, rfl, delete_file_remote_absent envC "x" "x" srcEmpty rfl rfl⟩

/-- C4: with the setting off, delete_file returns exactly the inherited
timestamp-based result, emits no log and invokes neither fingerprint
helper. -/
theorem delete_file_flag_off (env : Env) (path prefixed_path : String)
    (source_storage : String → Except Unit (List Nat))
    (hf : env.fast = false) :
    delete_file env path prefixed_path source_storage =
      (env.superDelete path prefixed_path source_storage, [], []) := by
  simp [delete_file, hf]

/-- C4, witness at a concrete environment with the setting off. -/
theorem delete_file_flag_off_witness :
    envD.fast = false ∧
      delete_file envD "x" "x" srcEmpty =
        (envD.superDelete "x" "x" srcEmpty, [], []) :=
  ⟨rfl, delete_file_flag_off envD "x" "x" srcEmpty rfl⟩

/-- C5: the local fingerprint is independent of the read chunk size, for
any two chunk sizes of at least one byte. -/
theorem get_local_hash_chunk_independent (content : List Nat) (path : String)
    (bs1 bs2 : Nat) (h1 : 1 ≤ bs1) (h2 : 1 ≤ bs2) :
    get_local_hash (fun _ => Except.ok content) path bs1 =
      get_local_hash (fun _ => Except.ok content) path bs2 := by
  simp only [get_local_hash, chunksOf_foldl bs1 h1, chunksOf_foldl bs2 h2]

/-- C5, witness: a three-byte file hashed with one-byte reads and with
two-byte reads. -/
theorem get_local_hash_chunk_independent_witness :
    1 ≤ 1 ∧ 1 ≤ 2 ∧
      get_local_hash (fun _ => Except.ok [104, 105, 33]) "f" 1 =
        get_local_hash (fun _ => Except.ok [104, 105, 33]) "f" 2 :=
  ⟨Nat.le_refl 1, by decide,
   get_local_hash_chunk_independent [104, 105, 33] "f" 1 2 (Nat.le_refl 1)
     (by decide)⟩

/-- C6: a remote etag that is the local fingerprint wrapped in double
quotes compares equal after stripping, so the decision is skip. -/
theorem delete_file_quote_tolerant (env : Env)
    (path prefixed_path hsh : String)
    (source_storage : String → Except Unit (List Nat))
    (es : List (String × String))
    (hf : env.fast = true)
    (he : env.storage.exists_ prefixed_path = true)
    (hq : quoteChar ∉ hsh.data)
    (hent : env.storage.entries = some es)
    (hlook : es.lookup (get_entry_path env.storage env.storage prefixed_path).1
      = some (String.mk (quoteChar :: (hsh.data ++ [quoteChar]))))
    (hl : get_local_hash source_storage path 1048576 = Except.ok hsh) :
    (delete_file env path prefixed_path source_storage).1 = false := by
  have hr : (get_remote_hash env.storage prefixed_path).1 = Except.ok hsh := by
    simp [get_remote_hash, hent, hlook, stripQuotes_wrap hsh hq]
  rw [delete_file_fst_of_hashes env path prefixed_path source_storage hsh hsh
    hf he hr hl]
  simp

/-- C6, witness: the spec's scenario, an empty local file against a remote
entry holding the quoted empty-file digest, decides skip. -/
theorem delete_file_quote_tolerant_witness :
    envE.fast = true ∧ envE.storage.exists_ "s" = true ∧
      quoteChar ∉ emptyDigest.data ∧
      envE.storage.entries = some [("s", quotedEmptyDigest)] ∧
      get_local_hash srcEmpty "s" 1048576 = Except.ok emptyDigest ∧
      (delete_file envE "s" "s" srcEmpty).1 = false :=
  ⟨rfl, rfl, by decide, rfl, rfl,
   delete_file_quote_tolerant envE "s" "s" emptyDigest srcEmpty
     [("s", quotedEmptyDigest)] rfl rfl (by decide) rfl rfl rfl⟩

/-- C7: a storage with neither path-normalization capability still gets an
entry path, the join of the command storage's location with the prefixed
path, together with an informational notice. -/
theorem get_entry_path_unknown_storage (selfS s : Storage)
    (prefixed_path : String)
    (h1 : s.normalize_name = none) (h2 : s.clean_name = none) :
    get_entry_path selfS s prefixed_path =
      (os_path_join selfS.location prefixed_path,
       [LogMsg.unknownStorage prefixed_path]) := by
  simp [get_entry_path, h1, h2]

/-- C7, witness at a storage with neither helper, including the concrete
joined path. -/
theorem get_entry_path_unknown_storage_witness :
    storageA.normalize_name = none ∧ storageA.clean_name = none ∧
      os_path_join storageA.location "css/app.css" = "static/css/app.css" ∧
      get_entry_path storageA storageA "css/app.css" =
        (os_path_join storageA.location "css/app.css",
         [LogMsg.unknownStorage "css/app.css"]) :=
  ⟨rfl, rfl, by decide,
   get_entry_path_unknown_storage storageA storageA "css/app.css" rfl rfl⟩

/-- C8: at construction with the setting on and preload_metadata present
but disabled, the storage is forced to preload metadata and a notice is
logged; with the setting off the storage is left unchanged. -/
theorem initStorage_forces_preload (s : Storage)
    (h : s.preload_metadata = some false) :
    initStorage true s =
      ({ s with preload_metadata := some true }, [LogMsg.forcingPreload]) ∧
      initStorage false s = (s, []) := by
  refine ⟨?_, ?_⟩
  · simp [initStorage, h]
  · simp [initStorage]

/-- C8, witness at a concrete storage with preload_metadata disabled. -/
theorem initStorage_forces_preload_witness :
    storageF.preload_metadata = some false ∧
      initStorage true storageF =
        ({ storageF with preload_metadata := some true },
         [LogMsg.forcingPreload]) ∧
      initStorage false storageF = (storageF, []) :=
  ⟨rfl, (initStorage_forces_preload storageF rfl).1,
   (initStorage_forces_preload storageF rfl).2⟩

/-- C9, counterexample: on a plain successful run the stream lifecycle of
get_local_hash contains the open event but no close event, so the stream
is not closed on every exit path. -/
theorem get_local_hash_close_counterexample :
    FEvent.openEv ∈ (get_local_hash_events (Except.ok [1, 2, 3]) 2).2 ∧
      FEvent.closeEv ∉ (get_local_hash_events (Except.ok [1, 2, 3]) 2).2 := by
  decide

/-- C9, amended: get_local_hash never emits a close on any path, successful
or failing; closing is left to the runtime. -/
theorem get_local_hash_no_close (openRes : Except Unit (List Nat))
    (bs : Nat) :
    FEvent.closeEv ∉ (get_local_hash_events openRes bs).2 := by
  cases openRes with
  | error e => simp [get_local_hash_events]
  | ok content => simp [get_local_hash_events]

/-- C10: a storage with no preload_metadata attribute at all is treated as
already enabled: even with the setting on, nothing is forced and nothing is
logged. -/
theorem initStorage_missing_attribute (s : Storage)
    (h : s.preload_metadata = none) :
    initStorage true s = (s, []) := by
  simp [initStorage, h]

/-- C10, witness at a concrete storage lacking the attribute. -/
theorem initStorage_missing_attribute_witness :
    storageA.preload_metadata = none ∧
      initStorage true storageA = (storageA, []) :=
  ⟨rfl, initStorage_missing_attribute storageA rfl⟩

end FastCollect
